import Mathlib

/-!
Shallow embedding of the `netrias_client` Python package, covering the
mapping-discovery adapter (`_adapter.py`), the harmonization payload codec
(`_http.py`) and the configuration validation (`_config.py`), together with
theorems settling the specification claims about them.

Python values parsed from JSON are modelled by `PyVal`; Python `dict`s are
modelled as insertion-ordered association lists with unique keys (exactly the
observable structure of a CPython dict): assignment is `dictInsert`, lookup is
`List.lookup` (first match, which on unique keys coincides with Python
lookup), and `in` is key containment.  Machine floats are modelled by `ℚ`
(the code under verification only compares scores, never rounds).  Leading
underscores of private Python helpers are dropped from the Lean names.
-/

set_option linter.unusedVariables false

namespace Netrias

/-- A JSON-like Python value (`None`, `bool`, `int`, `float`, `str`, `list`,
`dict`).  Floats carry a rational value; `bool` is kept distinct from `int`,
and the places where Python treats `bool` as an `int` subclass
(`isinstance(x, (float, int))`, `int(x)`) handle the `bool` case explicitly,
mirroring CPython semantics. -/
inductive PyVal where
  | none : PyVal
  | bool : Bool → PyVal
  | int : Int → PyVal
  | rat : ℚ → PyVal
  | str : String → PyVal
  | list : List PyVal → PyVal
  | dict : List (String × PyVal) → PyVal

/-- Python `dict.get(k)` on a dict with unique keys: first-match lookup. -/
def pyGet (d : List (String × PyVal)) (k : String) : Option PyVal :=
  List.lookup k d

/-- Python `d[k] = v` on an insertion-ordered dict: overwrite in place when the
key exists, else append. -/
def dictInsert {β : Type} (d : List (String × β)) (k : String) (v : β) :
    List (String × β) :=
  if (d.map Prod.fst).contains k then
    d.map (fun p => if p.1 = k then (k, v) else p)
  else d ++ [(k, v)]

/-! ## `_models.py`: adapter-facing dataclasses

The inert `raw` diagnostic fields of `MappingRecommendationOption` and
`MappingSuggestion` (never read by any code under verification) are omitted. -/

/-- `MappingRecommendationOption`: a single recommended target for a column. -/
structure MappingRecommendationOption where
  target : Option String
  confidence : Option ℚ
deriving DecidableEq, Repr

/-- `MappingSuggestion`: the recommendation options for one source column. -/
structure MappingSuggestion where
  source_column : String
  options : List MappingRecommendationOption
deriving DecidableEq, Repr

/-- `MappingDiscoveryResult`: structured suggestions plus the raw payload. -/
structure MappingDiscoveryResult where
  schema : String
  suggestions : List MappingSuggestion
  raw : List (String × PyVal)

/-! ## `_adapter.py`: strongest-target selection -/

/-- `_meets_threshold`: confidence present and `score >= threshold`. -/
def meets_threshold (option : MappingRecommendationOption) (threshold : ℚ) : Bool :=
  match option.confidence with
  | Option.none => false
  | Option.some score => decide (threshold ≤ score)

/-- The key of Python's `max(eligible, key=lambda opt: opt.confidence or float("-inf"))`:
a missing confidence — and also a confidence equal to `0.0`, since `0.0` is
falsy in Python — is replaced by `-inf`, modelled as `⊥ : WithBot ℚ`. -/
def optKey (option : MappingRecommendationOption) : WithBot ℚ :=
  match option.confidence with
  | Option.none => (⊥ : WithBot ℚ)
  | Option.some c => if c = 0 then (⊥ : WithBot ℚ) else (c : WithBot ℚ)

/-- CPython `max`'s linear scan: the current best is replaced only when a
strictly greater key appears, so the first maximum wins. -/
def maxLoop (cur : MappingRecommendationOption) :
    List MappingRecommendationOption → MappingRecommendationOption
  | [] => cur
  | x :: xs => maxLoop (if optKey cur < optKey x then x else cur) xs

/-- `_top_option`: filter by threshold, then `max` by confidence-or-`-inf`. -/
def top_option (options : List MappingRecommendationOption) (threshold : ℚ) :
    Option MappingRecommendationOption :=
  match options.filter (fun o => meets_threshold o threshold) with
  | [] => Option.none
  | o :: rest => Option.some (maxLoop o rest)

/-- The value a suggestion contributes: the top option's target, unless the top
option is missing or its target is null. -/
def selectedTarget (options : List MappingRecommendationOption) (threshold : ℚ) :
    Option String :=
  match top_option options threshold with
  | Option.none => Option.none
  | Option.some o => o.target

/-- `_from_suggestions`: a dict built by `strongest[source_column] = target`,
skipping columns whose top option is missing or has a null target. -/
def from_suggestions (suggestions : List MappingSuggestion) (threshold : ℚ) :
    List (String × String) :=
  suggestions.foldl
    (fun acc sg =>
      match selectedTarget sg.options threshold with
      | Option.none => acc
      | Option.some v => dictInsert acc sg.source_column v)
    []

/-- `_option_from_mapping`: requires a string `target`; a numeric (or, per
CPython's `isinstance(x, (float, int))`, boolean) `similarity` becomes the
confidence, anything else leaves the confidence missing. -/
def option_from_mapping (item : List (String × PyVal)) :
    Option MappingRecommendationOption :=
  match pyGet item "target" with
  | Option.some (PyVal.str t) =>
    Option.some
      { target := Option.some t
        confidence :=
          match pyGet item "similarity" with
          | Option.some (PyVal.int n) => Option.some (n : ℚ)
          | Option.some (PyVal.rat q) => Option.some q
          | Option.some (PyVal.bool b) => Option.some (if b then 1 else 0)
          | _ => Option.none }
  | _ => Option.none

/-- `_coerce_options` composed with `_option_iterator`: non-list values give no
options; non-dict items and items without a string target are skipped. -/
def coerce_options (value : PyVal) : List MappingRecommendationOption :=
  match value with
  | PyVal.list items =>
    items.filterMap (fun item =>
      match item with
      | PyVal.dict d => option_from_mapping d
      | _ => Option.none)
  | _ => []

/-- `_from_raw_payload`: the legacy fallback, reading a column-keyed map of
option lists. -/
def from_raw_payload (payload : List (String × PyVal)) (threshold : ℚ) :
    List (String × String) :=
  payload.foldl
    (fun acc kv =>
      match selectedTarget (coerce_options kv.2) threshold with
      | Option.none => acc
      | Option.some v => dictInsert acc kv.1 v)
    []

/-- `strongest_targets`: structured suggestions when present (Python truthiness
of the tuple: non-empty), otherwise the raw-payload fallback.  The confidence
threshold, read from settings in the source, is passed explicitly. -/
def strongest_targets (result : MappingDiscoveryResult) (threshold : ℚ) :
    List (String × String) :=
  if result.suggestions = [] then from_raw_payload result.raw threshold
  else from_suggestions result.suggestions threshold

/-- A manifest entry: `{"targetField": …}` possibly extended with the static
table's `route`/`cdeId`/`cde_id` fields. -/
structure ManifestEntry where
  route : Option String := Option.none
  targetField : String
  cdeId : Option Int := Option.none
  cde_id : Option Int := Option.none
deriving DecidableEq, Repr

/-- `_COLUMN_METADATA`: the active (non-commented) static overrides. -/
def COLUMN_METADATA : List (String × ManifestEntry) :=
  [ ("primary_diagnosis",
      { route := Option.some "sagemaker:primary"
        targetField := "primary_diagnosis"
        cdeId := Option.some (-200)
        cde_id := Option.some (-200) })
  , ("therapeutic_agents",
      { route := Option.some "sagemaker:therapeutic_agents"
        targetField := "therapeutic_agents"
        cdeId := Option.some (-203)
        cde_id := Option.some (-203) })
  , ("morphology",
      { route := Option.some "sagemaker:morphology"
        targetField := "morphology"
        cdeId := Option.some (-201)
        cde_id := Option.some (-201) }) ]

/-- `_initial_entry`: the static table's entry when the column is special-cased,
otherwise the bare `{"targetField": target}`. -/
def initial_entry (source : String) (target : String) : ManifestEntry :=
  match List.lookup source COLUMN_METADATA with
  | Option.none => { targetField := target }
  | Option.some metadata => metadata

/-- `_apply_metadata_defaults`: add every static-table column not yet present. -/
def apply_metadata_defaults (entries : List (String × ManifestEntry)) :
    List (String × ManifestEntry) :=
  COLUMN_METADATA.foldl
    (fun acc sm =>
      if (acc.map Prod.fst).contains sm.1 then acc
      else dictInsert acc sm.1 sm.2)
    entries

/-- The entry-building loop of `_column_entries`. -/
def initial_entries (strongest : List (String × String)) :
    List (String × ManifestEntry) :=
  strongest.foldl
    (fun acc st => dictInsert acc st.1 (initial_entry st.1 st.2))
    []

/-- `_column_entries`: per-column initial entries, then the static defaults. -/
def column_entries (strongest : List (String × String)) :
    List (String × ManifestEntry) :=
  apply_metadata_defaults (initial_entries strongest)

/-- The manifest wrapper `{"column_mappings": …}` returned by the adapter. -/
structure ColumnMappingPayload where
  column_mappings : List (String × ManifestEntry)
deriving DecidableEq, Repr

/-- `build_column_mapping_payload`. -/
def build_column_mapping_payload (result : MappingDiscoveryResult)
    (threshold : ℚ) : ColumnMappingPayload :=
  { column_mappings := column_entries (strongest_targets result threshold) }

/-! ## `_http.py`: manifest normalization, envelope, compression, tabular IO -/

/-- Python whitespace stripped by `str.strip()` (the ASCII subset; the code
under verification only strips manifest field names and numeric strings). -/
def isPySpace (c : Char) : Bool :=
  c = ' ' || c = '\t' || c = '\n' || c = '\r' || c = '\x0b' || c = '\x0c'

/-- Python `str.strip()`. -/
def pyStrip (s : String) : String :=
  (((s.toList.dropWhile isPySpace).reverse.dropWhile isPySpace).reverse).asString

/-- Python `str.lower()` (ASCII subset, enough for file extensions). -/
def pyLower (s : String) : String := (s.toList.map Char.toLower).asString

/-- Python `str.upper()` (ASCII subset, enough for log-level names). -/
def pyUpper (s : String) : String := (s.toList.map Char.toUpper).asString

/-- The tail of a CPython decimal integer literal: digits with single
underscores allowed between digits (`int("1_0") == 10`, `int("1__0")` and
`int("1_")` raise). -/
def pyDigitsRest : List Char → Option (List Nat)
  | [] => Option.some []
  | c :: rest =>
    if c.isDigit then (pyDigitsRest rest).map (fun ds => (c.toNat - 48) :: ds)
    else if c = '_' then
      match rest with
      | [] => Option.none
      | d :: rest2 =>
        if d.isDigit then (pyDigitsRest rest2).map (fun ds => (d.toNat - 48) :: ds)
        else Option.none
    else Option.none

/-- Value of a list of decimal digits. -/
def digitsVal (ds : List Nat) : Nat := ds.foldl (fun a d => 10 * a + d) 0

/-- A CPython unsigned decimal integer literal: a digit followed by
`pyDigitsRest` (non-ASCII decimal digits accepted by CPython are not
modelled). -/
def pyParseDigits (cs : List Char) : Option Nat :=
  match cs with
  | [] => Option.none
  | c :: rest =>
    if c.isDigit then (pyDigitsRest rest).map (fun ds => digitsVal ((c.toNat - 48) :: ds))
    else Option.none

/-- `_int_from_string`: strip, reject empty, then `int(stripped)` with an
optional sign; parse failure yields `None` (the `ValueError` is caught). -/
def int_from_string (s : String) : Option Int :=
  match (pyStrip s).toList with
  | [] => Option.none
  | c :: rest =>
    if c = '+' then (pyParseDigits rest).map (fun n => (n : Int))
    else if c = '-' then (pyParseDigits rest).map (fun n => -(n : Int))
    else (pyParseDigits (c :: rest)).map (fun n => (n : Int))

/-- Python `int(float)`: truncation toward zero (exact on the rational model;
the `inf`/`nan` failure branch of `_int_from_number` has no rational
counterpart). -/
def pyTrunc (q : ℚ) : Int := Int.tdiv q.num (q.den : Int)

/-- `_int_from_candidate`: `bool` first (as in the source, since Python bools
are ints), then numbers, then strings; anything else is unparsable. -/
def int_from_candidate (candidate : PyVal) : Option Int :=
  match candidate with
  | PyVal.bool b => Option.some (if b then 1 else 0)
  | PyVal.int n => Option.some n
  | PyVal.rat q => Option.some (pyTrunc q)
  | PyVal.str s => int_from_string s
  | _ => Option.none

/-- `_cde_candidate`: inside a dict prefer a non-`None` `cdeId`, then a
non-`None` `cde_id`, else nothing; a non-dict value is its own candidate. -/
def cde_candidate (value : PyVal) : Option PyVal :=
  match value with
  | PyVal.dict d =>
    (match pyGet d "cdeId" with
     | Option.some PyVal.none | Option.none =>
       (match pyGet d "cde_id" with
        | Option.some PyVal.none | Option.none => Option.none
        | Option.some v => Option.some v)
     | Option.some v => Option.some v)
  | v => Option.some v

/-- `_coerce_cde_id`. -/
def coerce_cde_id (value : PyVal) : Option Int :=
  match cde_candidate value with
  | Option.none => Option.none
  | Option.some candidate => int_from_candidate candidate

/-- `_clean_field` (manifest keys come from JSON, hence are strings; the
non-string branch is unreachable in the embedding). -/
def clean_field (field : String) : Option String :=
  let name := pyStrip field
  if name = "" then Option.none else Option.some name

/-- `_mapping_dict`: use the `column_mappings` sub-dict when it is a dict,
otherwise the whole dict; a non-dict manifest yields the empty mapping. -/
def mapping_dict (raw : PyVal) : List (String × PyVal) :=
  match raw with
  | PyVal.dict d =>
    (match pyGet d "column_mappings" with
     | Option.some (PyVal.dict c) => c
     | _ => d)
  | _ => []

/-- The entry loop of `_normalized_mapping`: entries with a blank field or an
uncoercible id are skipped. -/
def normalized_entries (mapping : List (String × PyVal)) : List (String × Int) :=
  mapping.foldl
    (fun acc fv =>
      match clean_field fv.1, coerce_cde_id fv.2 with
      | Option.some name, Option.some cde => dictInsert acc name cde
      | _, _ => acc)
    []

/-- `_normalized_mapping` on an already-parsed manifest (the JSON decode
error raised for unparsable manifest text is upstream of this model). -/
def normalized_mapping (raw : PyVal) : List (String × Int) :=
  normalized_entries (mapping_dict raw)

/-- The `document` object of the harmonize envelope (`sheetName` is the
constant `None` in the source). -/
structure HarmonizeDocument where
  name : String
  sheetName : Option String
  header : List String
  rows : List (List String)
deriving DecidableEq, Repr

/-- The harmonize envelope; `mapping` is `Option`al because the source adds
the key only when the normalized mapping is non-empty (`if mapping:`). -/
structure HarmonizeEnvelope where
  schemaVersion : String
  modelVersion : String
  document : HarmonizeDocument
  mapping : Option (List (String × Int))
deriving DecidableEq, Repr

def SCHEMA_VERSION : String := "1.0"

def DEFAULT_MODEL_VERSION : String := "v1"

def MAX_COMPRESSED_BYTES : Nat := 10 * 1024 * 1024

/-- The envelope-building portion of `build_harmonize_payload` (lines 27–44 of
`_http.py`), on rows already read from the source file. -/
def build_envelope (csvName : String) (rows : List (List String))
    (manifest : PyVal) (modelVersion : String) : HarmonizeEnvelope :=
  let header := match rows with | [] => [] | r :: _ => r
  let data_rows := if 1 < rows.length then rows.tail else []
  let mapping := normalized_mapping manifest
  { schemaVersion := SCHEMA_VERSION
    modelVersion := modelVersion
    document :=
      { name := csvName
        sheetName := Option.none
        header := header
        rows := data_rows }
    mapping := if mapping = [] then Option.none else Option.some mapping }

/-- Little-endian 32-bit encoding (byte list) of a natural number. -/
def le32 (n : Nat) : List Nat :=
  [n % 256, n / 256 % 256, n / 65536 % 256, n / 16777216 % 256]

/-- CPython `gzip.compress(data)` with the default `mtime=None`: the 10-byte
header `1f 8b 08 00 <mtime, LE32> 02 ff` records the CURRENT TIME in bytes
4–7, followed by the DEFLATE body and the CRC32/ISIZE trailer, which are
functions of the data alone and are modelled together by the uninterpreted
parameter `deflate`. -/
def gzip_compress (deflate : List Nat → List Nat) (mtime : Nat)
    (data : List Nat) : List Nat :=
  [0x1f, 0x8b, 8, 0] ++ le32 mtime ++ [2, 0xff] ++ deflate data

/-- Errors raised by the payload codec. -/
inductive FileError where
  | fileNotFound : FileError
  | valueError : String → FileError
deriving DecidableEq, Repr

/-- `pathlib.Path.suffix` of a final path component: the part from the last
dot, unless that dot is the first or past-the-last character. -/
def path_suffix (name : String) : String :=
  let cs := name.toList
  match ((List.range cs.length).filter (fun i => cs.getD i ' ' = '.')).getLast? with
  | Option.none => ""
  | Option.some i =>
    if 0 < i ∧ i < cs.length - 1 then (cs.drop i).asString else ""

/-- `_read_tabular`: existence check, then extension check, then `csv.reader`
with the extension-chosen delimiter.  The reader is modelled by the parameter
`parse`, mapping a delimiter to the parsed rows of the file's contents; the
error branches never consult it. -/
def read_tabular (pathExists : Bool) (fileName : String)
    (parse : Char → List (List String)) : Except FileError (List (List String)) :=
  if pathExists = false then Except.error FileError.fileNotFound
  else
    let ext := pyLower (path_suffix fileName)
    if ext ≠ ".csv" ∧ ext ≠ ".tsv" then
      Except.error (FileError.valueError "harmonization only supports CSV or TSV inputs")
    else
      Except.ok (parse (if ext = ".csv" then ',' else '\t'))

/-- `build_harmonize_payload`: read the tabular source, build the envelope,
serialize (`json.dumps`, modelled by the uninterpreted parameter `serialize`),
gzip-compress, and enforce the 10 MiB bound.  The function is pure: it
performs no network requests. -/
def build_harmonize_payload (serialize : HarmonizeEnvelope → List Nat)
    (deflate : List Nat → List Nat) (mtime : Nat) (pathExists : Bool)
    (csvName : String) (parse : Char → List (List String)) (manifest : PyVal)
    (modelVersion : String) : Except FileError (List Nat) :=
  match read_tabular pathExists csvName parse with
  | Except.error e => Except.error e
  | Except.ok rows =>
    let envelope := build_envelope csvName rows manifest modelVersion
    let compressed := gzip_compress deflate mtime (serialize envelope)
    if MAX_COMPRESSED_BYTES < compressed.length then
      Except.error (FileError.valueError "compressed harmonization payload exceeds 10 MiB")
    else Except.ok compressed

/-! ## `_config.py`: settings validation -/

/-- The configuration error (`ClientConfigurationError`). -/
inductive ConfigError where
  | clientConfiguration : String → ConfigError
deriving DecidableEq, Repr

/-- The fixed log-level set.  Modelled from the spec: the `LogLevel` enum of
`_models.py`'s current revision is outside `src/`; its members are taken from
the spec's "fixed enumerated set" together with the level table of
`_logging.py` (`CRITICAL`/`ERROR`/`WARNING`/`INFO`/`DEBUG`). -/
inductive LogLevel where
  | critical | error | warning | info | debug
deriving DecidableEq, Repr

/-- Enum-member lookup `LogLevel[upper]`. -/
def logLevelOfName (s : String) : Option LogLevel :=
  if s = "CRITICAL" then Option.some LogLevel.critical
  else if s = "ERROR" then Option.some LogLevel.error
  else if s = "WARNING" then Option.some LogLevel.warning
  else if s = "INFO" then Option.some LogLevel.info
  else if s = "DEBUG" then Option.some LogLevel.debug
  else Option.none

/-- Target deployment environment. -/
inductive Environment where
  | prod | staging
deriving DecidableEq, Repr

structure DataModelStoreEndpoints where
  base_url : String
deriving DecidableEq, Repr

/-- The validated settings snapshot built by `build_settings`. -/
structure Settings where
  api_key : String
  discovery_url : String
  harmonization_url : String
  timeout : ℚ
  log_level : LogLevel
  discovery_use_gateway_bypass : Bool
  log_directory : Option String
  data_model_store_endpoints : DataModelStoreEndpoints
  discovery_use_async_api : Bool
deriving DecidableEq, Repr

def DISCOVERY_BASE_URL : String := "https://api.netriasbdf.cloud"

def HARMONIZATION_BASE_URL : String :=
  "https://93y57g8ouk.execute-api.us-east-2.amazonaws.com/prod"

def DATA_MODEL_STORE_BASE_URL : String :=
  "https://85fnwlcuc2.execute-api.us-east-2.amazonaws.com/default"

/-- `_ENVIRONMENT_URLS`, as (discovery, harmonization, data-model-store). -/
def environment_urls : Environment → String × String × String
  | Environment.prod =>
    ("https://6lvkljeyod.execute-api.us-east-2.amazonaws.com/prod",
     "https://93y57g8ouk.execute-api.us-east-2.amazonaws.com/prod",
     "https://85fnwlcuc2.execute-api.us-east-2.amazonaws.com/default")
  | Environment.staging =>
    ("https://s7a8ekw0yd.execute-api.us-east-2.amazonaws.com",
     "https://p9r0fv2o5g.execute-api.us-east-2.amazonaws.com/staging",
     "https://85fnwlcuc2.execute-api.us-east-2.amazonaws.com/default")

/-- `_normalized_level`: `None` → INFO; otherwise an upper-cased member
lookup, failing with a configuration error outside the enumerated set. -/
def normalized_level (level : Option String) : Except ConfigError LogLevel :=
  match level with
  | Option.none => Except.ok LogLevel.info
  | Option.some s =>
    match logLevelOfName (pyUpper s) with
    | Option.some lv => Except.ok lv
    | Option.none =>
      Except.error (ConfigError.clientConfiguration ("unsupported log_level: " ++ s))

/-- `_validated_timeout`: `None` → 1200.0 seconds; a supplied value must be
strictly positive. -/
def validated_timeout (timeout : Option ℚ) : Except ConfigError ℚ :=
  match timeout with
  | Option.none => Except.ok 1200
  | Option.some q =>
    if q ≤ 0 then
      Except.error (ConfigError.clientConfiguration "timeout must be positive when provided")
    else Except.ok q

/-- `validated_confidence_threshold`. -/
def validated_confidence_threshold (value : Option ℚ)
    (default : ℚ := mkRat 4 5) : Except ConfigError ℚ :=
  match value with
  | Option.none => Except.ok default
  | Option.some v =>
    if ¬ (0 ≤ v ∧ v ≤ 1) then
      Except.error
        (ConfigError.clientConfiguration "confidence_threshold must be between 0.0 and 1.0")
    else Except.ok v

/-- `_normalized_bool`. -/
def normalized_bool (value : Option Bool) (default : Bool := false) : Bool :=
  value.getD default

/-- Python `x or fallback` on an optional string: `None` and `""` are falsy. -/
def pyOrStr (value : Option String) (fallback : String) : String :=
  match value with
  | Option.some s => if s = "" then fallback else s
  | Option.none => fallback

/-- `build_settings`.  `_validated_log_directory`'s `mkdir` side effect and its
`OSError` branch are filesystem behaviour outside the embedding; the directory
argument is passed through. -/
def build_settings (api_key : String) (timeout : Option ℚ)
    (log_level : Option String) (discovery_use_gateway_bypass : Option Bool)
    (discovery_use_async_api : Option Bool) (log_directory : Option String)
    (discovery_url : Option String) (harmonization_url : Option String)
    (data_model_store_url : Option String) (environment : Option Environment) :
    Except ConfigError Settings :=
  let key := pyStrip api_key
  if key = "" then
    Except.error
      (ConfigError.clientConfiguration
        "api_key must be a non-empty string; call configure(api_key=...) before use")
  else
    match normalized_level log_level with
    | Except.error e => Except.error e
    | Except.ok level =>
      match validated_timeout timeout with
      | Except.error e => Except.error e
      | Except.ok timeout_value =>
        let bypass_enabled := normalized_bool discovery_use_gateway_bypass
        let async_api_enabled := normalized_bool discovery_use_async_api
        let directory := log_directory
        let env_urls := environment.map environment_urls
        let resolved_discovery_url :=
          pyOrStr discovery_url
            (match env_urls with
             | Option.some u => u.1
             | Option.none => DISCOVERY_BASE_URL)
        let resolved_harmonization_url :=
          pyOrStr harmonization_url
            (match env_urls with
             | Option.some u => u.2.1
             | Option.none => HARMONIZATION_BASE_URL)
        let resolved_dms_url :=
          pyOrStr data_model_store_url
            (match env_urls with
             | Option.some u => u.2.2
             | Option.none => DATA_MODEL_STORE_BASE_URL)
        Except.ok
          { api_key := key
            discovery_url := resolved_discovery_url
            harmonization_url := resolved_harmonization_url
            timeout := timeout_value
            log_level := level
            discovery_use_gateway_bypass := bypass_enabled
            log_directory := directory
            data_model_store_endpoints := { base_url := resolved_dms_url }
            discovery_use_async_api := async_api_enabled }

/-- The bytes of a gzip stream with the header's 4-byte mtime field (bytes
4–7) removed: what remains of `gzip.compress` output once the timestamp is
ignored. -/
def stripMtime (bytes : List Nat) : List Nat := bytes.take 4 ++ bytes.drop 8

/-! ## Specification-side selection (for the refinement claim C1) -/

/-- The confidence of an option, for comparisons among eligible options (all of
which carry one). -/
def sconf (o : MappingRecommendationOption) : ℚ := o.confidence.getD 0

/-- Written from the spec's words, deliberately not from the source: "filter
options whose confidence is present and >= confidenceThreshold"; "among
eligible options, select the one with maximum confidence; ties are broken by
first-encountered order".  `find?` returns the first eligible option whose
confidence dominates every eligible confidence: the first maximum. -/
def specStrongestOption (options : List MappingRecommendationOption)
    (threshold : ℚ) : Option MappingRecommendationOption :=
  (options.filter (fun o => meets_threshold o threshold)).find?
    (fun o =>
      (options.filter (fun o => meets_threshold o threshold)).all
        (fun o' => decide (sconf o' ≤ sconf o)))

/-- First-encountered maximum of a list by `optKey`: a proof-side stepping
stone between `maxLoop` and `specStrongestOption`. -/
def keyStrongest (l : List MappingRecommendationOption) :
    Option MappingRecommendationOption :=
  l.find? (fun o => l.all (fun o' => decide (optKey o' ≤ optKey o)))

end Netrias

/-! ## Association-list dictionary lemmas -/

namespace Netrias

theorem lookup_eq_none_of_not_mem {β : Type} (l : List (String × β)) (k : String)
    (h : k ∉ l.map Prod.fst) : List.lookup k l = Option.none := by
  induction l with
  | nil => rfl
  | cons p rest ih =>
    rw [List.map_cons] at h
    have h1 : k ≠ p.1 := fun e => h (by rw [e]; exact List.mem_cons_self _ _)
    have h2 : k ∉ rest.map Prod.fst := fun m => h (List.mem_cons_of_mem _ m)
    have hb : (k == p.1) = false := beq_eq_false_iff_ne.mpr h1
    simp [List.lookup, hb, ih h2]

theorem lookup_ne_none_of_mem {β : Type} (l : List (String × β)) (k : String)
    (h : k ∈ l.map Prod.fst) : List.lookup k l ≠ Option.none := by
  induction l with
  | nil => simp at h
  | cons p rest ih =>
    by_cases hk : k = p.1
    · simp [List.lookup, beq_iff_eq.mpr hk]
    · rw [List.map_cons] at h
      have h' : k ∈ rest.map Prod.fst := by
        rcases List.mem_cons.mp h with h1 | h2
        · exact absurd h1 hk
        · exact h2
      have hb : (k == p.1) = false := beq_eq_false_iff_ne.mpr hk
      simp [List.lookup, hb, ih h']

theorem mem_of_lookup_eq_some {β : Type} (l : List (String × β)) (k : String)
    (v : β) (h : List.lookup k l = Option.some v) : (k, v) ∈ l := by
  induction l with
  | nil => simp [List.lookup] at h
  | cons p rest ih =>
    by_cases hk : k = p.1
    · have hb : (k == p.1) = true := beq_iff_eq.mpr hk
      simp only [List.lookup, hb] at h
      have hp : p = (k, v) := by
        cases p
        simp_all
      rw [hp]
      exact List.mem_cons_self _ _
    · have hb : (k == p.1) = false := beq_eq_false_iff_ne.mpr hk
      simp only [List.lookup, hb] at h
      exact List.mem_cons_of_mem _ (ih h)

theorem lookup_append_of_not_mem {β : Type} (l₁ l₂ : List (String × β)) (k : String)
    (h : k ∉ l₁.map Prod.fst) :
    List.lookup k (l₁ ++ l₂) = List.lookup k l₂ := by
  induction l₁ with
  | nil => rfl
  | cons p rest ih =>
    rw [List.map_cons] at h
    have h1 : k ≠ p.1 := fun e => h (by rw [e]; exact List.mem_cons_self _ _)
    have h2 : k ∉ rest.map Prod.fst := fun m => h (List.mem_cons_of_mem _ m)
    have hb : (k == p.1) = false := beq_eq_false_iff_ne.mpr h1
    simp [List.lookup, hb, ih h2]

theorem lookup_overwrite_self {β : Type} (d : List (String × β)) (k : String)
    (v : β) (h : k ∈ d.map Prod.fst) :
    List.lookup k (d.map (fun p => if p.1 = k then (k, v) else p))
      = Option.some v := by
  induction d with
  | nil => simp at h
  | cons p rest ih =>
    rw [List.map_cons]
    by_cases hp : p.1 = k
    · rw [if_pos hp]
      simp [List.lookup]
    · rw [if_neg hp]
      rw [List.map_cons] at h
      have h' : k ∈ rest.map Prod.fst := by
        rcases List.mem_cons.mp h with h1 | h2
        · exact absurd h1.symm hp
        · exact h2
      have hb : (k == p.1) = false := beq_eq_false_iff_ne.mpr (fun e => hp e.symm)
      simp [List.lookup, hb, ih h']

theorem lookup_overwrite_ne {β : Type} (d : List (String × β)) (k c : String)
    (v : β) (h : c ≠ k) :
    List.lookup c (d.map (fun p => if p.1 = k then (k, v) else p))
      = List.lookup c d := by
  induction d with
  | nil => rfl
  | cons p rest ih =>
    rw [List.map_cons]
    by_cases hp : p.1 = k
    · rw [if_pos hp]
      have hb1 : (c == k) = false := beq_eq_false_iff_ne.mpr h
      have hb2 : (c == p.1) = false := beq_eq_false_iff_ne.mpr (hp ▸ h)
      simp [List.lookup, hb1, hb2, ih]
    · rw [if_neg hp]
      by_cases hcp : c = p.1
      · simp [List.lookup, beq_iff_eq.mpr hcp]
      · have hb : (c == p.1) = false := beq_eq_false_iff_ne.mpr hcp
        simp [List.lookup, hb, ih]

theorem lookup_append_single_ne {β : Type} (d : List (String × β)) (k c : String)
    (v : β) (h : c ≠ k) :
    List.lookup c (d ++ [(k, v)]) = List.lookup c d := by
  induction d with
  | nil => simp [List.lookup, beq_eq_false_iff_ne.mpr h]
  | cons p rest ih =>
    by_cases hcp : c = p.1
    · simp [List.lookup, beq_iff_eq.mpr hcp]
    · have hb : (c == p.1) = false := beq_eq_false_iff_ne.mpr hcp
      simp [List.lookup, hb, ih]

theorem lookup_dictInsert_self {β : Type} (d : List (String × β)) (k : String)
    (v : β) : List.lookup k (dictInsert d k v) = Option.some v := by
  unfold dictInsert
  by_cases h : (d.map Prod.fst).contains k = true
  · rw [if_pos h]
    exact lookup_overwrite_self d k v (by simpa using h)
  · rw [if_neg h]
    have hmem : k ∉ d.map Prod.fst := by simpa using h
    rw [lookup_append_of_not_mem d _ k hmem]
    simp [List.lookup]

theorem lookup_dictInsert_ne {β : Type} (d : List (String × β)) (k c : String)
    (v : β) (h : c ≠ k) :
    List.lookup c (dictInsert d k v) = List.lookup c d := by
  unfold dictInsert
  by_cases hc : (d.map Prod.fst).contains k = true
  · rw [if_pos hc]
    exact lookup_overwrite_ne d k c v h
  · rw [if_neg hc]
    exact lookup_append_single_ne d k c v h

end Netrias

/-! ## Generic lemmas about key-local folds (dict-building loops) -/

namespace Netrias

theorem foldl_read_not_mem {σ δ β : Type} (s : σ → δ → σ) (key : δ → String)
    (read : σ → String → Option β)
    (hloc : ∀ a d c, c ≠ key d → read (s a d) c = read a c) :
    ∀ (l : List δ) (acc : σ) (c : String), c ∉ l.map key →
      read (l.foldl s acc) c = read acc c := by
  intro l
  induction l with
  | nil => intro acc c _; rfl
  | cons e rest ih =>
    intro acc c h
    rw [List.map_cons] at h
    have h1 : c ≠ key e := fun hk => h (by rw [hk]; exact List.mem_cons_self _ _)
    have h2 : c ∉ rest.map key := fun m => h (List.mem_cons_of_mem _ m)
    rw [List.foldl_cons, ih (s acc e) c h2, hloc acc e c h1]

theorem foldl_read_mem {σ δ β : Type} (s : σ → δ → σ) (key : δ → String)
    (read : σ → String → Option β) (g : Option β → δ → Option β)
    (hloc : ∀ a d c, c ≠ key d → read (s a d) c = read a c)
    (hg : ∀ a d, read (s a d) (key d) = g (read a (key d)) d) :
    ∀ (l : List δ) (acc : σ) (d : δ), d ∈ l → (l.map key).Nodup →
      read (l.foldl s acc) (key d) = g (read acc (key d)) d := by
  intro l
  induction l with
  | nil => intro acc d hd _; exact absurd hd (List.not_mem_nil d)
  | cons e rest ih =>
    intro acc d hd hnd
    rw [List.map_cons, List.nodup_cons] at hnd
    rcases List.mem_cons.mp hd with he | hr
    · subst he
      rw [List.foldl_cons,
        foldl_read_not_mem s key read hloc rest (s acc d) (key d) hnd.1, hg]
    · have hne : key d ≠ key e := by
        intro hkey
        exact hnd.1 (hkey ▸ List.mem_map_of_mem key hr)
      rw [List.foldl_cons, ih (s acc e) d hr hnd.2, hloc acc e (key d) hne]

/-! ## Per-column lookup characterizations of the adapter's loops -/

theorem lookup_from_suggestions (suggestions : List MappingSuggestion) (t : ℚ)
    (hnd : (suggestions.map MappingSuggestion.source_column).Nodup)
    (sg : MappingSuggestion) (hsg : sg ∈ suggestions) :
    List.lookup sg.source_column (from_suggestions suggestions t)
      = selectedTarget sg.options t := by
  have h := foldl_read_mem
    (fun acc sg' =>
      match selectedTarget sg'.options t with
      | Option.none => acc
      | Option.some v => dictInsert acc sg'.source_column v)
    MappingSuggestion.source_column
    (fun a c => List.lookup c a)
    (fun o sg' =>
      match selectedTarget sg'.options t with
      | Option.none => o
      | Option.some v => Option.some v)
    (by
      intro a d c hc
      cases hsel : selectedTarget d.options t with
      | none => simp [hsel]
      | some v => simp [hsel, lookup_dictInsert_ne a d.source_column c v hc])
    (by
      intro a d
      cases hsel : selectedTarget d.options t with
      | none => simp [hsel]
      | some v => simp [hsel, lookup_dictInsert_self a d.source_column v])
    suggestions [] sg hsg hnd
  refine Eq.trans h ?_
  cases hsel : selectedTarget sg.options t with
  | none => simp [hsel, List.lookup]
  | some v => simp [hsel]

theorem lookup_from_suggestions_not_mem (suggestions : List MappingSuggestion)
    (t : ℚ) (c : String)
    (hc : c ∉ suggestions.map MappingSuggestion.source_column) :
    List.lookup c (from_suggestions suggestions t) = Option.none := by
  have h := foldl_read_not_mem
    (fun acc sg' =>
      match selectedTarget sg'.options t with
      | Option.none => acc
      | Option.some v => dictInsert acc sg'.source_column v)
    MappingSuggestion.source_column
    (fun a c => List.lookup c a)
    (by
      intro a d c' hc'
      cases hsel : selectedTarget d.options t with
      | none => simp [hsel]
      | some v => simp [hsel, lookup_dictInsert_ne a d.source_column c' v hc'])
    suggestions [] c hc
  exact h

theorem lookup_from_raw_payload (payload : List (String × PyVal)) (t : ℚ)
    (hnd : (payload.map Prod.fst).Nodup)
    (kv : String × PyVal) (hkv : kv ∈ payload) :
    List.lookup kv.1 (from_raw_payload payload t)
      = selectedTarget (coerce_options kv.2) t := by
  have h := foldl_read_mem
    (fun acc kv' =>
      match selectedTarget (coerce_options kv'.2) t with
      | Option.none => acc
      | Option.some v => dictInsert acc kv'.1 v)
    Prod.fst
    (fun a c => List.lookup c a)
    (fun o kv' =>
      match selectedTarget (coerce_options kv'.2) t with
      | Option.none => o
      | Option.some v => Option.some v)
    (by
      intro a d c hc
      cases hsel : selectedTarget (coerce_options d.2) t with
      | none => simp [hsel]
      | some v => simp [hsel, lookup_dictInsert_ne a d.1 c v hc])
    (by
      intro a d
      cases hsel : selectedTarget (coerce_options d.2) t with
      | none => simp [hsel]
      | some v => simp [hsel, lookup_dictInsert_self a d.1 v])
    payload [] kv hkv hnd
  refine Eq.trans h ?_
  cases hsel : selectedTarget (coerce_options kv.2) t with
  | none => simp [hsel, List.lookup]
  | some v => simp [hsel]

theorem lookup_initial_entries (strongest : List (String × String))
    (hnd : (strongest.map Prod.fst).Nodup)
    (st : String × String) (hst : st ∈ strongest) :
    List.lookup st.1 (initial_entries strongest)
      = Option.some (initial_entry st.1 st.2) := by
  have h := foldl_read_mem
    (fun acc st' => dictInsert acc st'.1 (initial_entry st'.1 st'.2))
    Prod.fst
    (fun a c => List.lookup c a)
    (fun o st' => Option.some (initial_entry st'.1 st'.2))
    (by
      intro a d c hc
      exact lookup_dictInsert_ne a d.1 c _ hc)
    (by
      intro a d
      exact lookup_dictInsert_self a d.1 _)
    strongest [] st hst hnd
  exact h

theorem lookup_initial_entries_not_mem (strongest : List (String × String))
    (c : String) (hc : c ∉ strongest.map Prod.fst) :
    List.lookup c (initial_entries strongest) = Option.none := by
  have h := foldl_read_not_mem
    (fun acc st' => dictInsert acc st'.1 (initial_entry st'.1 st'.2))
    Prod.fst
    (fun a c => List.lookup c a)
    (by
      intro a d c' hc'
      exact lookup_dictInsert_ne a d.1 c' _ hc')
    strongest [] c hc
  exact h

theorem lookup_apply_metadata_defaults_mem
    (entries : List (String × ManifestEntry)) (sm : String × ManifestEntry)
    (hsm : sm ∈ COLUMN_METADATA) :
    List.lookup sm.1 (apply_metadata_defaults entries)
      = (match List.lookup sm.1 entries with
         | Option.none => Option.some sm.2
         | Option.some x => Option.some x) := by
  have h := foldl_read_mem
    (fun acc sm' =>
      if (acc.map Prod.fst).contains sm'.1 then acc
      else dictInsert acc sm'.1 sm'.2)
    Prod.fst
    (fun a c => List.lookup c a)
    (fun o sm' =>
      match o with
      | Option.none => Option.some sm'.2
      | Option.some x => Option.some x)
    (by
      intro a d c hc
      dsimp only
      by_cases hcont : (a.map Prod.fst).contains d.1 = true
      · rw [if_pos hcont]
      · rw [if_neg hcont]
        exact lookup_dictInsert_ne a d.1 c _ hc)
    (by
      intro a d
      dsimp only
      by_cases hcont : (a.map Prod.fst).contains d.1 = true
      · have hmem : d.1 ∈ a.map Prod.fst := by simpa using hcont
        rw [if_pos hcont]
        cases hl : List.lookup d.1 a with
        | none => exact absurd hl (lookup_ne_none_of_mem a d.1 hmem)
        | some x => simp [hl]
      · have hmem : d.1 ∉ a.map Prod.fst := by simpa using hcont
        have hl : List.lookup d.1 a = Option.none :=
          lookup_eq_none_of_not_mem a d.1 hmem
        rw [if_neg hcont, lookup_dictInsert_self a d.1 d.2, hl])
    COLUMN_METADATA entries sm hsm (by decide)
  exact Eq.trans h (by cases hl : List.lookup sm.1 entries <;> simp [hl])

theorem lookup_apply_metadata_defaults_not_mem
    (entries : List (String × ManifestEntry)) (c : String)
    (hc : c ∉ COLUMN_METADATA.map Prod.fst) :
    List.lookup c (apply_metadata_defaults entries) = List.lookup c entries := by
  have h := foldl_read_not_mem
    (fun acc sm' =>
      if (acc.map Prod.fst).contains sm'.1 then acc
      else dictInsert acc sm'.1 sm'.2)
    Prod.fst
    (fun a c => List.lookup c a)
    (by
      intro a d c' hc'
      dsimp only
      by_cases hcont : (a.map Prod.fst).contains d.1 = true
      · rw [if_pos hcont]
      · rw [if_neg hcont]
        exact lookup_dictInsert_ne a d.1 c' _ hc')
    COLUMN_METADATA entries c hc
  exact h

end Netrias

/-! ## `maxLoop` computes the spec's first-encountered maximum -/

namespace Netrias

theorem find_congr {α : Type} (l : List α) (p q : α → Bool)
    (h : ∀ x ∈ l, p x = q x) : l.find? p = l.find? q := by
  induction l with
  | nil => rfl
  | cons a rest ih =>
    have ha := h a (List.mem_cons_self a rest)
    by_cases hp : p a = true
    · rw [List.find?_cons_of_pos _ hp, List.find?_cons_of_pos _ (by rw [← ha]; exact hp)]
    · rw [List.find?_cons_of_neg _ hp, List.find?_cons_of_neg _ (by rw [← ha]; exact hp)]
      exact ih fun x hx => h x (List.mem_cons_of_mem a hx)

theorem all_congr_list {α : Type} (l : List α) (p q : α → Bool)
    (h : ∀ x ∈ l, p x = q x) : l.all p = l.all q := by
  induction l with
  | nil => rfl
  | cons a rest ih =>
    rw [List.all_cons, List.all_cons, h a (List.mem_cons_self a rest),
      ih fun x hx => h x (List.mem_cons_of_mem a hx)]

theorem keyStrongest_merge (cur x : MappingRecommendationOption)
    (rest : List MappingRecommendationOption) :
    keyStrongest (cur :: x :: rest)
      = keyStrongest ((if optKey cur < optKey x then x else cur) :: rest) := by
  by_cases hlt : optKey cur < optKey x
  · rw [if_pos hlt]
    unfold keyStrongest
    have hcur : ¬ (((cur :: x :: rest).all
        fun o' => decide (optKey o' ≤ optKey cur)) = true) := by
      intro hall
      have hx := List.all_eq_true.mp hall x (by simp)
      exact absurd (of_decide_eq_true hx) (not_le.mpr hlt)
    rw [@List.find?_cons_of_neg _
      (fun o => (cur :: x :: rest).all fun o' => decide (optKey o' ≤ optKey o))
      cur (x :: rest) hcur]
    apply find_congr
    intro o ho
    rw [List.all_cons]
    by_cases hall : ((x :: rest).all fun o' => decide (optKey o' ≤ optKey o)) = true
    · have hx : optKey x ≤ optKey o :=
        of_decide_eq_true (List.all_eq_true.mp hall x (List.mem_cons_self x rest))
      have hcl : optKey cur ≤ optKey o := le_trans (le_of_lt hlt) hx
      simp [hall, hcl]
    · have hall' : ((x :: rest).all fun o' => decide (optKey o' ≤ optKey o)) = false :=
        Bool.not_eq_true _ |>.mp hall
      simp [hall']
  · rw [if_neg hlt]
    have hle : optKey x ≤ optKey cur := le_of_not_lt hlt
    unfold keyStrongest
    have hpt : ∀ o, ((cur :: x :: rest).all fun o' => decide (optKey o' ≤ optKey o))
        = ((cur :: rest).all fun o' => decide (optKey o' ≤ optKey o)) := by
      intro o
      rw [List.all_cons, List.all_cons, List.all_cons]
      by_cases hqc : decide (optKey cur ≤ optKey o) = true
      · have hc' : optKey cur ≤ optKey o := of_decide_eq_true hqc
        have hx' : optKey x ≤ optKey o := le_trans hle hc'
        simp [hqc, decide_eq_true hx']
      · have hqc' : decide (optKey cur ≤ optKey o) = false :=
          Bool.not_eq_true _ |>.mp hqc
        simp [hqc']
    by_cases hc : ((cur :: x :: rest).all
        fun o' => decide (optKey o' ≤ optKey cur)) = true
    · rw [@List.find?_cons_of_pos _
          (fun o => (cur :: x :: rest).all fun o' => decide (optKey o' ≤ optKey o))
          cur (x :: rest) hc,
        @List.find?_cons_of_pos _
          (fun o => (cur :: rest).all fun o' => decide (optKey o' ≤ optKey o))
          cur rest (by dsimp only; rw [← hpt cur]; exact hc)]
    · have hx : ¬ (((cur :: x :: rest).all
          fun o' => decide (optKey o' ≤ optKey x)) = true) := by
        intro hallx
        have h1 : optKey cur ≤ optKey x :=
          of_decide_eq_true (List.all_eq_true.mp hallx cur (by simp))
        have heq : optKey x = optKey cur := le_antisymm hle h1
        apply hc
        apply List.all_eq_true.mpr
        intro o' ho'
        have h2 := of_decide_eq_true (List.all_eq_true.mp hallx o' ho')
        exact decide_eq_true (heq ▸ h2)
      rw [@List.find?_cons_of_neg _
          (fun o => (cur :: x :: rest).all fun o' => decide (optKey o' ≤ optKey o))
          cur (x :: rest) hc,
        @List.find?_cons_of_neg _
          (fun o => (cur :: x :: rest).all fun o' => decide (optKey o' ≤ optKey o))
          x rest hx,
        @List.find?_cons_of_neg _
          (fun o => (cur :: rest).all fun o' => decide (optKey o' ≤ optKey o))
          cur rest (by dsimp only; rw [← hpt cur]; exact hc)]
      apply find_congr
      intro o _
      exact hpt o

theorem keyStrongest_cons :
    ∀ (xs : List MappingRecommendationOption) (cur : MappingRecommendationOption),
      keyStrongest (cur :: xs) = Option.some (maxLoop cur xs) := by
  intro xs
  induction xs with
  | nil =>
    intro cur
    unfold keyStrongest
    rw [List.find?_cons_of_pos _ (by simp)]
    rfl
  | cons x rest ih =>
    intro cur
    rw [keyStrongest_merge cur x rest, ih]
    rfl

theorem optKey_le_iff (a b : ℚ) (ha : 0 ≤ a) (hb : 0 ≤ b) :
    ((if a = 0 then (⊥ : WithBot ℚ) else (a : WithBot ℚ))
      ≤ (if b = 0 then (⊥ : WithBot ℚ) else (b : WithBot ℚ))) ↔ a ≤ b := by
  by_cases haz : a = 0
  · subst haz
    rw [if_pos rfl]
    exact iff_of_true bot_le hb
  · have ha' : (0 : ℚ) < a := lt_of_le_of_ne ha (Ne.symm haz)
    rw [if_neg haz]
    by_cases hbz : b = 0
    · subst hbz
      rw [if_pos rfl]
      exact iff_of_false (WithBot.not_coe_le_bot a) (not_le.mpr ha')
    · rw [if_neg hbz, WithBot.coe_le_coe]

theorem top_option_eq_spec (options : List MappingRecommendationOption) (t : ℚ)
    (ht : 0 ≤ t) : top_option options t = specStrongestOption options t := by
  have hel : ∀ o ∈ options.filter (fun o => meets_threshold o t),
      ∃ c, o.confidence = Option.some c ∧ t ≤ c := by
    intro o ho
    have hmt := List.of_mem_filter ho
    cases hconf : o.confidence with
    | none =>
      rw [show meets_threshold o t = false by simp [meets_threshold, hconf]] at hmt
      exact absurd hmt (by simp)
    | some c =>
      refine ⟨c, rfl, ?_⟩
      have h2 : meets_threshold o t = decide (t ≤ c) := by simp [meets_threshold, hconf]
      rw [h2] at hmt
      exact of_decide_eq_true hmt
  have hpt : ∀ o ∈ options.filter (fun o => meets_threshold o t),
      ((options.filter (fun o => meets_threshold o t)).all
          (fun o' => decide (sconf o' ≤ sconf o)))
        = ((options.filter (fun o => meets_threshold o t)).all
          (fun o' => decide (optKey o' ≤ optKey o))) := by
    intro o ho
    apply all_congr_list
    intro o' ho'
    obtain ⟨c, hc, htc⟩ := hel o ho
    obtain ⟨c', hc', htc'⟩ := hel o' ho'
    have h0c : (0 : ℚ) ≤ c := le_trans ht htc
    have h0c' : (0 : ℚ) ≤ c' := le_trans ht htc'
    have e1 : sconf o = c := by simp [sconf, hc]
    have e2 : sconf o' = c' := by simp [sconf, hc']
    have k1 : optKey o = (if c = 0 then (⊥ : WithBot ℚ) else (c : WithBot ℚ)) := by
      simp [optKey, hc]
    have k2 : optKey o' = (if c' = 0 then (⊥ : WithBot ℚ) else (c' : WithBot ℚ)) := by
      simp [optKey, hc']
    rw [e1, e2, k1, k2]
    exact decide_eq_decide.mpr (optKey_le_iff c' c h0c' h0c).symm
  cases hfil : options.filter (fun o => meets_threshold o t) with
  | nil => simp [top_option, specStrongestOption, hfil]
  | cons o rest =>
    have hks := keyStrongest_cons rest o
    unfold keyStrongest at hks
    have h1 : top_option options t = Option.some (maxLoop o rest) := by
      simp [top_option, hfil]
    have h2 : specStrongestOption options t
        = (o :: rest).find?
            (fun o1 => (o :: rest).all (fun o' => decide (sconf o' ≤ sconf o1))) := by
      simp [specStrongestOption, hfil]
    rw [h1, h2, ← hks]
    apply find_congr
    intro o1 ho1
    have := hpt o1 (by rw [hfil]; exact ho1)
    rw [hfil] at this
    exact this.symm

theorem selectedTarget_eq_spec (options : List MappingRecommendationOption)
    (t : ℚ) (ht : 0 ≤ t) :
    selectedTarget options t
      = Option.bind (specStrongestOption options t)
          MappingRecommendationOption.target := by
  unfold selectedTarget
  rw [top_option_eq_spec options t ht]
  cases specStrongestOption options t <;> rfl

end Netrias

/-! ## Claim theorems: the discovery adapter (C1, C2, C3, C9) -/

namespace Netrias

/-- C1: for every confidence threshold `t` in `[0,1]` and every discovery
result carrying structured suggestions (one per source column), the selection
made by `strongest_targets` is, per column, exactly the target of the
specification's choice `specStrongestOption`: the first-encountered option
whose confidence is present and `≥ t` and is maximal among such options
(ties broken by first-encountered order).  Options with missing confidence are
never eligible, and a column with no eligible option is absent (`lookup`
yields `none`). -/
theorem C1_strongest_targets_selects_first_max (t : ℚ) (h0 : 0 ≤ t) (h1 : t ≤ 1)
    (result : MappingDiscoveryResult) (hne : result.suggestions ≠ [])
    (hnd : (result.suggestions.map MappingSuggestion.source_column).Nodup)
    (sg : MappingSuggestion) (hsg : sg ∈ result.suggestions) :
    List.lookup sg.source_column (strongest_targets result t)
      = Option.bind (specStrongestOption sg.options t)
          MappingRecommendationOption.target := by
  unfold strongest_targets
  rw [if_neg hne, lookup_from_suggestions result.suggestions t hnd sg hsg,
    selectedTarget_eq_spec sg.options t h0]

/-- Witness for C1 at a concrete tie: two options share the maximal
confidence `0.9 ≥ 0.5` and the first-encountered one is selected. -/
theorem C1_witness :
    List.lookup "col"
      (strongest_targets
        { schema := "ccdi"
          suggestions :=
            [ { source_column := "col"
                options :=
                  [ { target := Option.some "t1", confidence := Option.some (mkRat 9 10) }
                  , { target := Option.some "t2", confidence := Option.some (mkRat 9 10) } ] } ]
          raw := [] }
        (mkRat 1 2))
      = Option.some "t1" := by
  have h := C1_strongest_targets_selects_first_max (mkRat 1 2) (by decide) (by decide)
    { schema := "ccdi"
      suggestions :=
        [ { source_column := "col"
            options :=
              [ { target := Option.some "t1", confidence := Option.some (mkRat 9 10) }
              , { target := Option.some "t2", confidence := Option.some (mkRat 9 10) } ] } ]
      raw := [] }
    (by simp) (by decide)
    { source_column := "col"
      options :=
        [ { target := Option.some "t1", confidence := Option.some (mkRat 9 10) }
        , { target := Option.some "t2", confidence := Option.some (mkRat 9 10) } ] }
    (by simp)
  exact h.trans (by decide)

/-- C2 counterexample: on the empty discovery result the built manifest is not
empty — it carries exactly the static metadata table, so the claimed
`{"column_mappings": {}}` is wrong. -/
theorem C2_counterexample :
    (build_column_mapping_payload
        { schema := "ccdi", suggestions := [], raw := [] }
        (mkRat 4 5)).column_mappings = COLUMN_METADATA
      ∧ COLUMN_METADATA ≠ [] := by
  constructor
  · decide
  · decide

/-- C2 (amended): for an empty discovery result and any threshold,
`build_column_mapping_payload` returns — without raising — a manifest whose
`column_mappings` are exactly the static metadata table's entries
(`primary_diagnosis`, `therapeutic_agents`, `morphology`). -/
theorem C2_empty_result_static_manifest (schema : String) (t : ℚ) :
    (build_column_mapping_payload
        { schema := schema, suggestions := [], raw := [] } t).column_mappings
      = COLUMN_METADATA := by
  show column_entries
      (strongest_targets { schema := schema, suggestions := [], raw := [] } t)
    = COLUMN_METADATA
  have h1 : strongest_targets
      { schema := schema, suggestions := [], raw := [] } t = [] := rfl
  rw [h1]
  decide

/-- C3: the results-map fallback shape `{"x": [{target, similarity}, …]}` at
threshold `0.8` selects `age` (similarity 1.0) and not `ageUnit` (0.1); and on
any payload whose values the adapter does not recognize as option lists the
fallback resolves no selections at all — and, being a total function, never
raises. -/
theorem C3_results_map_fallback :
    List.lookup "x"
      (strongest_targets
        { schema := "gc"
          suggestions := []
          raw := [("x", PyVal.list
            [ PyVal.dict [("target", PyVal.str "age"),
                          ("similarity", PyVal.rat (mkRat 1 1))]
            , PyVal.dict [("target", PyVal.str "ageUnit"),
                          ("similarity", PyVal.rat (mkRat 1 10))] ])] }
        (mkRat 8 10))
      = Option.some "age" ∧
    (∀ (payload : List (String × PyVal)) (t : ℚ),
      (∀ kv ∈ payload, coerce_options kv.2 = []) →
        from_raw_payload payload t = []) := by
  constructor
  · decide
  · intro payload t
    induction payload with
    | nil => intro _; rfl
    | cons kv rest ih =>
      intro h
      have hkv := h kv (List.mem_cons_self kv rest)
      have hsel : selectedTarget (coerce_options kv.2) t = Option.none := by
        rw [hkv]
        rfl
      have hstep : from_raw_payload (kv :: rest) t = from_raw_payload rest t := by
        unfold from_raw_payload
        rw [List.foldl_cons, hsel]
      rw [hstep]
      exact ih fun kv' hkv' => h kv' (List.mem_cons_of_mem kv hkv')

/-- Witness for C3's unrecognized-shape clause: a payload with a
`recommendations`-style key and a junk string value resolves nothing. -/
theorem C3_witness :
    from_raw_payload
      [("recommendations", PyVal.list []), ("a", PyVal.str "junk")]
      (mkRat 1 2) = [] :=
  C3_results_map_fallback.2
    [("recommendations", PyVal.list []), ("a", PyVal.str "junk")]
    (mkRat 1 2) (by decide)

/-- C9: after per-column selection, the static metadata overrides are merged
in: a selected column absent from the table maps to the bare
`{targetField: selectedTarget}`; a selected column present in the table takes
the table's entry; every table column not selected is still added; and every
table entry carries a synthetic negative CDE id. -/
theorem C9_metadata_merge (strongest : List (String × String))
    (hnd : (strongest.map Prod.fst).Nodup) :
    (∀ st ∈ strongest, List.lookup st.1 COLUMN_METADATA = Option.none →
      List.lookup st.1 (column_entries strongest)
        = Option.some { targetField := st.2 }) ∧
    (∀ st ∈ strongest, ∀ m : ManifestEntry,
      List.lookup st.1 COLUMN_METADATA = Option.some m →
      List.lookup st.1 (column_entries strongest) = Option.some m) ∧
    (∀ sm ∈ COLUMN_METADATA, sm.1 ∉ strongest.map Prod.fst →
      List.lookup sm.1 (column_entries strongest) = Option.some sm.2) ∧
    (∀ sm ∈ COLUMN_METADATA, ∃ n : Int, n < 0 ∧ sm.2.cdeId = Option.some n) := by
  refine ⟨?_, ?_, ?_, ?_⟩
  · intro st hst hmeta
    have hnotmem : st.1 ∉ COLUMN_METADATA.map Prod.fst :=
      fun hmem => lookup_ne_none_of_mem _ _ hmem hmeta
    unfold column_entries
    rw [lookup_apply_metadata_defaults_not_mem _ _ hnotmem,
      lookup_initial_entries strongest hnd st hst]
    simp [initial_entry, hmeta]
  · intro st hst m hm
    have hsm_mem : (st.1, m) ∈ COLUMN_METADATA := mem_of_lookup_eq_some _ _ _ hm
    unfold column_entries
    have hd := lookup_apply_metadata_defaults_mem (initial_entries strongest)
      (st.1, m) hsm_mem
    dsimp only at hd
    rw [lookup_initial_entries strongest hnd st hst] at hd
    rw [hd]
    simp [initial_entry, hm]
  · intro sm hsm hnot
    unfold column_entries
    have hd := lookup_apply_metadata_defaults_mem (initial_entries strongest) sm hsm
    rw [lookup_initial_entries_not_mem strongest sm.1 hnot] at hd
    exact hd
  · intro sm hsm
    simp only [COLUMN_METADATA, List.mem_cons, List.not_mem_nil, or_false] at hsm
    rcases hsm with rfl | rfl | rfl
    · exact ⟨-200, by decide, rfl⟩
    · exact ⟨-203, by decide, rfl⟩
    · exact ⟨-201, by decide, rfl⟩

/-- Witness for C9: a discovered plain column, a discovered special-cased
column, and an undiscovered static column, all behaving as the claim says. -/
theorem C9_witness :
    List.lookup "age_col" (column_entries [("age_col", "age"), ("primary_diagnosis", "pd")])
        = Option.some { targetField := "age" } ∧
    List.lookup "primary_diagnosis"
        (column_entries [("age_col", "age"), ("primary_diagnosis", "pd")])
        = Option.some
            { route := Option.some "sagemaker:primary"
              targetField := "primary_diagnosis"
              cdeId := Option.some (-200)
              cde_id := Option.some (-200) } ∧
    List.lookup "morphology"
        (column_entries [("age_col", "age"), ("primary_diagnosis", "pd")])
        = Option.some
            { route := Option.some "sagemaker:morphology"
              targetField := "morphology"
              cdeId := Option.some (-201)
              cde_id := Option.some (-201) } := by
  refine ⟨?_, ?_, ?_⟩
  · exact (C9_metadata_merge [("age_col", "age"), ("primary_diagnosis", "pd")]
      (by decide)).1 ("age_col", "age") (by decide) (by decide)
  · exact (C9_metadata_merge [("age_col", "age"), ("primary_diagnosis", "pd")]
      (by decide)).2.1 ("primary_diagnosis", "pd") (by decide) _ (by decide)
  · exact (C9_metadata_merge [("age_col", "age"), ("primary_diagnosis", "pd")]
      (by decide)).2.2.1
      ("morphology",
        { route := Option.some "sagemaker:morphology"
          targetField := "morphology"
          cdeId := Option.some (-201)
          cde_id := Option.some (-201) })
      (by decide) (by decide)

end Netrias

/-! ## Claim theorems: manifest normalization (C4) -/

namespace Netrias

theorem isPySpace_eq_false_of_isDigit (c : Char) (h : c.isDigit = true) :
    isPySpace c = false := by
  have w1 : c ≠ ' ' := fun e => by subst e; exact absurd h (by decide)
  have w2 : c ≠ '\t' := fun e => by subst e; exact absurd h (by decide)
  have w3 : c ≠ '\n' := fun e => by subst e; exact absurd h (by decide)
  have w4 : c ≠ '\r' := fun e => by subst e; exact absurd h (by decide)
  have w5 : c ≠ '\x0b' := fun e => by subst e; exact absurd h (by decide)
  have w6 : c ≠ '\x0c' := fun e => by subst e; exact absurd h (by decide)
  simp [isPySpace, w1, w2, w3, w4, w5, w6]

theorem pyStrip_of_no_space (cs : List Char)
    (h : ∀ c ∈ cs, isPySpace c = false) :
    pyStrip (String.mk cs) = String.mk cs := by
  unfold pyStrip
  have h1 : (String.mk cs).toList = cs := rfl
  rw [h1]
  have hd : cs.dropWhile isPySpace = cs := by
    cases cs with
    | nil => rfl
    | cons a rest =>
      rw [List.dropWhile_cons, if_neg (by simp [h a (List.mem_cons_self a rest)])]
  rw [hd]
  have hd2 : cs.reverse.dropWhile isPySpace = cs.reverse := by
    cases hrev : cs.reverse with
    | nil => rfl
    | cons a rest =>
      have ha : a ∈ cs := by
        have : a ∈ cs.reverse := by rw [hrev]; exact List.mem_cons_self a rest
        simpa using this
      rw [List.dropWhile_cons, if_neg (by simp [h a ha])]
  rw [hd2, List.reverse_reverse]
  rfl

theorem pyDigitsRest_all_digits (cs : List Char)
    (h : ∀ c ∈ cs, c.isDigit = true) :
    pyDigitsRest cs = Option.some (cs.map (fun c => c.toNat - 48)) := by
  induction cs with
  | nil => rfl
  | cons a rest ih =>
    unfold pyDigitsRest
    rw [if_pos (h a (List.mem_cons_self a rest)),
      ih fun c hc => h c (List.mem_cons_of_mem a hc)]
    rfl

theorem pyParseDigits_all_digits (a : Char) (rest : List Char)
    (h : ∀ c ∈ a :: rest, c.isDigit = true) :
    pyParseDigits (a :: rest)
      = Option.some (digitsVal ((a :: rest).map (fun c => c.toNat - 48))) := by
  rw [show pyParseDigits (a :: rest)
      = (if a.isDigit = true then
          (pyDigitsRest rest).map (fun ds => digitsVal ((a.toNat - 48) :: ds))
        else Option.none) from rfl]
  rw [if_pos (h a (List.mem_cons_self a rest)),
    pyDigitsRest_all_digits rest fun c hc => h c (List.mem_cons_of_mem a hc)]
  rfl

theorem int_from_string_digits (cs : List Char) (hne : cs ≠ [])
    (h : ∀ c ∈ cs, c.isDigit = true) :
    int_from_string (String.mk cs)
      = Option.some ((digitsVal (cs.map (fun c => c.toNat - 48)) : Int)) := by
  unfold int_from_string
  rw [pyStrip_of_no_space cs fun c hc => isPySpace_eq_false_of_isDigit c (h c hc)]
  cases cs with
  | nil => exact absurd rfl hne
  | cons a rest =>
    have ha := h a (List.mem_cons_self a rest)
    have hplus : a ≠ '+' := fun e => by subst e; exact absurd ha (by decide)
    have hminus : a ≠ '-' := fun e => by subst e; exact absurd ha (by decide)
    dsimp only [String.toList]
    rw [if_neg hplus, if_neg hminus, pyParseDigits_all_digits a rest h]
    rfl

theorem int_from_string_neg_digits (cs : List Char) (hne : cs ≠ [])
    (h : ∀ c ∈ cs, c.isDigit = true) :
    int_from_string (String.mk ('-' :: cs))
      = Option.some (-(digitsVal (cs.map (fun c => c.toNat - 48)) : Int)) := by
  unfold int_from_string
  have hall : ∀ c ∈ '-' :: cs, isPySpace c = false := by
    intro c hc
    rcases List.mem_cons.mp hc with rfl | hc'
    · decide
    · exact isPySpace_eq_false_of_isDigit c (h c hc')
  rw [pyStrip_of_no_space _ hall]
  cases cs with
  | nil => exact absurd rfl hne
  | cons a rest =>
    dsimp only [String.toList]
    rw [if_neg (by decide), if_pos rfl, pyParseDigits_all_digits a rest h]
    rfl

/-- C4: `build_harmonize_payload`'s manifest normalization accepts both the
raw `{field: cdeId}` map and the wrapped `{column_mappings: {field:
{cdeId|cde_id}}}` shape; string, integer, float and boolean CDE-id encodings
are all coerced to integer; and an entry with a blank field name or a
missing/unparsable id is skipped.  All functions involved are total, so
normalization never raises. -/
theorem C4_manifest_normalization :
    (∀ d : List (String × PyVal), pyGet d "column_mappings" = Option.none →
      mapping_dict (PyVal.dict d) = d) ∧
    (∀ (d c : List (String × PyVal)),
      pyGet d "column_mappings" = Option.some (PyVal.dict c) →
      mapping_dict (PyVal.dict d) = c) ∧
    (∀ n : Int, coerce_cde_id (PyVal.int n) = Option.some n) ∧
    (∀ q : ℚ, coerce_cde_id (PyVal.rat q) = Option.some (pyTrunc q)) ∧
    (∀ b : Bool, coerce_cde_id (PyVal.bool b)
      = Option.some (if b then 1 else 0)) ∧
    (∀ cs : List Char, cs ≠ [] → (∀ c ∈ cs, c.isDigit = true) →
      coerce_cde_id (PyVal.str (String.mk cs))
        = Option.some ((digitsVal (cs.map (fun c => c.toNat - 48)) : Int)) ∧
      coerce_cde_id (PyVal.str (String.mk ('-' :: cs)))
        = Option.some (-(digitsVal (cs.map (fun c => c.toNat - 48)) : Int))) ∧
    (∀ v : PyVal, v ≠ PyVal.none →
      coerce_cde_id (PyVal.dict [("cdeId", v)]) = int_from_candidate v ∧
      coerce_cde_id (PyVal.dict [("cde_id", v)]) = int_from_candidate v) ∧
    (∀ (mapping : List (String × PyVal)) (f : String) (v : PyVal),
      clean_field f = Option.none ∨ coerce_cde_id v = Option.none →
      normalized_entries (mapping ++ [(f, v)]) = normalized_entries mapping) := by
  refine ⟨?_, ?_, ?_, ?_, ?_, ?_, ?_, ?_⟩
  · intro d h
    rw [show mapping_dict (PyVal.dict d)
        = (match pyGet d "column_mappings" with
           | Option.some (PyVal.dict c) => c
           | _ => d) from rfl, h]
  · intro d c h
    rw [show mapping_dict (PyVal.dict d)
        = (match pyGet d "column_mappings" with
           | Option.some (PyVal.dict c) => c
           | _ => d) from rfl, h]
  · intro n; rfl
  · intro q; rfl
  · intro b; rfl
  · intro cs hne h
    constructor
    · show (match cde_candidate (PyVal.str (String.mk cs)) with
        | Option.none => Option.none
        | Option.some candidate => int_from_candidate candidate) = _
      rw [show cde_candidate (PyVal.str (String.mk cs))
          = Option.some (PyVal.str (String.mk cs)) from rfl]
      exact int_from_string_digits cs hne h
    · show (match cde_candidate (PyVal.str (String.mk ('-' :: cs))) with
        | Option.none => Option.none
        | Option.some candidate => int_from_candidate candidate) = _
      rw [show cde_candidate (PyVal.str (String.mk ('-' :: cs)))
          = Option.some (PyVal.str (String.mk ('-' :: cs))) from rfl]
      exact int_from_string_neg_digits cs hne h
  · intro v hv
    constructor
    · cases v with
      | none => exact absurd rfl hv
      | bool b => rfl
      | int n => rfl
      | rat q => rfl
      | str s => rfl
      | list l => rfl
      | dict d => rfl
    · cases v with
      | none => exact absurd rfl hv
      | bool b => rfl
      | int n => rfl
      | rat q => rfl
      | str s => rfl
      | list l => rfl
      | dict d => rfl
  · intro mapping f v h
    unfold normalized_entries
    rw [List.foldl_append]
    rcases h with hf | hv
    · rw [List.foldl_cons]
      dsimp only
      rw [hf]
      cases hcv : coerce_cde_id v <;> rfl
    · rw [List.foldl_cons]
      dsimp only
      rw [hv]
      cases hcf : clean_field f <;> rfl

/-- Witness for C4: a string-encoded id coerces; a blank-field entry and a
`null`-id entry are dropped. -/
theorem C4_witness :
    coerce_cde_id (PyVal.str (String.mk ['1', '2'])) = Option.some 12 ∧
    normalized_entries [("a", PyVal.int 5), (" ", PyVal.int 3)] = [("a", 5)] ∧
    mapping_dict (PyVal.dict [("a", PyVal.int 5)]) = [("a", PyVal.int 5)] := by
  refine ⟨?_, ?_, ?_⟩
  · exact ((C4_manifest_normalization.2.2.2.2.2.1 ['1', '2'] (by decide)
      (by decide)).1).trans (by decide)
  · exact (C4_manifest_normalization.2.2.2.2.2.2.2
      [("a", PyVal.int 5)] " " (PyVal.int 3) (Or.inl (by decide))).trans (by decide)
  · exact C4_manifest_normalization.1 [("a", PyVal.int 5)] rfl

end Netrias

/-! ## Claim theorems: the harmonize payload codec (C5, C6, C7) -/

namespace Netrias

/-- C5 counterexample: when the manifest normalizes to the empty mapping the
envelope carries NO `mapping` key (`Option.none`) rather than the normalized
manifest, so "mapping is the normalized manifest" fails as stated for every
JSON manifest. -/
theorem C5_counterexample :
    (build_envelope "data.csv" [["a", "b"]] (PyVal.dict []) "v1").mapping
      ≠ Option.some (normalized_mapping (PyVal.dict [])) := by
  decide

/-- C5 (amended): the envelope built from rows and a manifest has
`document.name` the source file's name, `document.header` the first row,
`document.rows` the remaining rows, and `mapping` the normalized manifest
whenever that is non-empty (the key is omitted when it is empty); in
particular manifest `{"a": {"cdeId": 5}}` with header `a,b` and 10 data rows
yields `header = ["a","b"]` and `mapping = {"a": 5}`. -/
theorem C5_envelope_structure (csvName modelVersion : String)
    (rows : List (List String)) (manifest : PyVal) :
    (build_envelope csvName rows manifest modelVersion).schemaVersion
        = SCHEMA_VERSION ∧
    (build_envelope csvName rows manifest modelVersion).modelVersion
        = modelVersion ∧
    (build_envelope csvName rows manifest modelVersion).document.name
        = csvName ∧
    (build_envelope csvName rows manifest modelVersion).document.header
        = rows.headD [] ∧
    (build_envelope csvName rows manifest modelVersion).document.rows
        = rows.tail ∧
    (normalized_mapping manifest ≠ [] →
      (build_envelope csvName rows manifest modelVersion).mapping
        = Option.some (normalized_mapping manifest)) ∧
    (build_envelope "data.csv" (["a", "b"] :: List.replicate 10 ["1", "2"])
        (PyVal.dict [("a", PyVal.dict [("cdeId", PyVal.int 5)])])
        "v1").document.header = ["a", "b"] ∧
    (build_envelope "data.csv" (["a", "b"] :: List.replicate 10 ["1", "2"])
        (PyVal.dict [("a", PyVal.dict [("cdeId", PyVal.int 5)])])
        "v1").document.rows = List.replicate 10 ["1", "2"] ∧
    (build_envelope "data.csv" (["a", "b"] :: List.replicate 10 ["1", "2"])
        (PyVal.dict [("a", PyVal.dict [("cdeId", PyVal.int 5)])])
        "v1").mapping = Option.some [("a", 5)] := by
  refine ⟨rfl, rfl, rfl, ?_, ?_, ?_, by decide, by decide, by decide⟩
  · cases rows <;> rfl
  · cases rows with
    | nil => rfl
    | cons r rest =>
      cases rest with
      | nil => rfl
      | cons r2 rest2 =>
        rw [show (build_envelope csvName (r :: r2 :: rest2) manifest
            modelVersion).document.rows
          = (if 1 < (r :: r2 :: rest2).length then (r :: r2 :: rest2).tail
             else []) from rfl]
        rw [if_pos (by simp [List.length_cons])]
  · intro hne
    rw [show (build_envelope csvName rows manifest modelVersion).mapping
        = (if normalized_mapping manifest = [] then Option.none
           else Option.some (normalized_mapping manifest)) from rfl]
    rw [if_neg hne]

/-- Witness for C5's conditional mapping clause at the scenario manifest. -/
theorem C5_witness :
    (build_envelope "data.csv" (["a", "b"] :: List.replicate 10 ["1", "2"])
        (PyVal.dict [("a", PyVal.dict [("cdeId", PyVal.int 5)])])
        "v1").mapping
      = Option.some (normalized_mapping
          (PyVal.dict [("a", PyVal.dict [("cdeId", PyVal.int 5)])])) :=
  (C5_envelope_structure "data.csv" "v1"
    (["a", "b"] :: List.replicate 10 ["1", "2"])
    (PyVal.dict [("a", PyVal.dict [("cdeId", PyVal.int 5)])])).2.2.2.2.2.1
    (by decide)

/-- C6: for a readable tabular source, `build_harmonize_payload` fails exactly
when the gzip-compressed payload exceeds 10 MiB, and otherwise returns the
compressed bytes.  The embedding is a pure function — a network request has no
representation here, mirroring that the source performs none before (or
after) this check. -/
theorem C6_size_guard (serialize : HarmonizeEnvelope → List Nat)
    (deflate : List Nat → List Nat) (mtime : Nat) (pathExists : Bool)
    (csvName : String) (parse : Char → List (List String)) (manifest : PyVal)
    (modelVersion : String) (rows : List (List String))
    (hread : read_tabular pathExists csvName parse = Except.ok rows) :
    ((build_harmonize_payload serialize deflate mtime pathExists csvName parse
        manifest modelVersion
      = Except.error (FileError.valueError
          "compressed harmonization payload exceeds 10 MiB"))
      ↔ MAX_COMPRESSED_BYTES
          < (gzip_compress deflate mtime
              (serialize (build_envelope csvName rows manifest
                modelVersion))).length) ∧
    (¬ MAX_COMPRESSED_BYTES
        < (gzip_compress deflate mtime
            (serialize (build_envelope csvName rows manifest
              modelVersion))).length →
      build_harmonize_payload serialize deflate mtime pathExists csvName parse
          manifest modelVersion
        = Except.ok (gzip_compress deflate mtime
            (serialize (build_envelope csvName rows manifest modelVersion)))) := by
  have hexpr : build_harmonize_payload serialize deflate mtime pathExists
      csvName parse manifest modelVersion
      = (if MAX_COMPRESSED_BYTES
            < (gzip_compress deflate mtime
                (serialize (build_envelope csvName rows manifest
                  modelVersion))).length
         then Except.error (FileError.valueError
            "compressed harmonization payload exceeds 10 MiB")
         else Except.ok (gzip_compress deflate mtime
            (serialize (build_envelope csvName rows manifest modelVersion)))) := by
    unfold build_harmonize_payload
    rw [hread]
  constructor
  · rw [hexpr]
    by_cases hlen : MAX_COMPRESSED_BYTES
        < (gzip_compress deflate mtime
            (serialize (build_envelope csvName rows manifest
              modelVersion))).length
    · rw [if_pos hlen]
      exact iff_of_true rfl hlen
    · rw [if_neg hlen]
      constructor
      · intro he
        exact absurd he (by simp)
      · intro hl
        exact absurd hl hlen
  · intro hlen
    rw [hexpr, if_neg hlen]

/-- Witness for C6 on a tiny input whose compressed size (10 header bytes) is
under the limit. -/
theorem C6_witness :
    build_harmonize_payload (fun _ => []) (fun d => d) 0 true "d.csv"
        (fun _ => []) PyVal.none "v1"
      = Except.ok (gzip_compress (fun d => d) 0 []) :=
  (C6_size_guard (fun _ => []) (fun d => d) 0 true "d.csv" (fun _ => [])
    PyVal.none "v1" [] rfl).2 (by decide)

/-- C7 counterexample: the same CSV rows and manifest built at two different
clock seconds (gzip header mtimes 0 and 1) give different bytes, refuting
byte-identity of repeated builds: CPython's `gzip.compress(data)` records the
current time in header bytes 4–7. -/
theorem C7_counterexample :
    build_harmonize_payload (fun _ => []) (fun d => d) 0 true "d.csv"
        (fun _ => []) PyVal.none "v1"
      ≠ build_harmonize_payload (fun _ => []) (fun d => d) 1 true "d.csv"
          (fun _ => []) PyVal.none "v1" := by
  intro h
  have h2 := congrArg
    (fun e => match e with
      | Except.ok bytes => bytes
      | Except.error _ => ([] : List Nat)) h
  exact absurd h2 (by decide)

/-- C7 (amended): `build_harmonize_payload` is deterministic in everything
except the gzip header's 4-byte mtime field: builds of the same file inputs at
any two times agree byte-for-byte once header bytes 4–7 are removed. -/
theorem C7_deterministic_modulo_mtime (serialize : HarmonizeEnvelope → List Nat)
    (deflate : List Nat → List Nat) (pathExists : Bool) (csvName : String)
    (parse : Char → List (List String)) (manifest : PyVal)
    (modelVersion : String) (mtime₁ mtime₂ : Nat) :
    Except.map stripMtime
        (build_harmonize_payload serialize deflate mtime₁ pathExists csvName
          parse manifest modelVersion)
      = Except.map stripMtime
          (build_harmonize_payload serialize deflate mtime₂ pathExists csvName
            parse manifest modelVersion) := by
  cases hread : read_tabular pathExists csvName parse with
  | error e =>
    have h1 : ∀ m : Nat, build_harmonize_payload serialize deflate m pathExists
        csvName parse manifest modelVersion = Except.error e := by
      intro m
      unfold build_harmonize_payload
      rw [hread]
    rw [h1 mtime₁, h1 mtime₂]
  | ok rows =>
    have hexpr : ∀ m : Nat, build_harmonize_payload serialize deflate m
        pathExists csvName parse manifest modelVersion
        = (if MAX_COMPRESSED_BYTES
              < (gzip_compress deflate m
                  (serialize (build_envelope csvName rows manifest
                    modelVersion))).length
           then Except.error (FileError.valueError
              "compressed harmonization payload exceeds 10 MiB")
           else Except.ok (gzip_compress deflate m
              (serialize (build_envelope csvName rows manifest
                modelVersion)))) := by
      intro m
      unfold build_harmonize_payload
      rw [hread]
    have hlen : (gzip_compress deflate mtime₁
          (serialize (build_envelope csvName rows manifest
            modelVersion))).length
        = (gzip_compress deflate mtime₂
            (serialize (build_envelope csvName rows manifest
              modelVersion))).length := by
      simp [gzip_compress, le32]
    have hstrip : ∀ m : Nat, stripMtime (gzip_compress deflate m
        (serialize (build_envelope csvName rows manifest modelVersion)))
        = [0x1f, 0x8b, 8, 0, 2, 0xff]
            ++ deflate (serialize (build_envelope csvName rows manifest
              modelVersion)) := fun m => rfl
    rw [hexpr mtime₁, hexpr mtime₂]
    by_cases hc : MAX_COMPRESSED_BYTES
        < (gzip_compress deflate mtime₁
            (serialize (build_envelope csvName rows manifest
              modelVersion))).length
    · rw [if_pos hc, if_pos (hlen ▸ hc)]
    · rw [if_neg hc, if_neg (hlen ▸ hc)]
      show Except.ok (stripMtime (gzip_compress deflate mtime₁
          (serialize (build_envelope csvName rows manifest modelVersion))))
        = Except.ok (stripMtime (gzip_compress deflate mtime₂
            (serialize (build_envelope csvName rows manifest modelVersion))))
      rw [hstrip mtime₁, hstrip mtime₂]

end Netrias

/-! ## Claim theorems: tabular input (C10) and configuration (C8) -/

namespace Netrias

/-- C10: for an existing path, `_read_tabular` chooses the delimiter strictly
from the lowercased file extension — `.csv` means comma, `.tsv` means tab —
and for any other extension fails with an error whose value is the same for
EVERY content reader (`parse` vs `parse'`), i.e. before any row data is
consumed. -/
theorem C10_read_tabular_extension (fileName : String)
    (parse parse' : Char → List (List String)) :
    (pyLower (path_suffix fileName) = ".csv" →
      read_tabular true fileName parse = Except.ok (parse ',')) ∧
    (pyLower (path_suffix fileName) = ".tsv" →
      read_tabular true fileName parse = Except.ok (parse '\t')) ∧
    (pyLower (path_suffix fileName) ≠ ".csv"
        ∧ pyLower (path_suffix fileName) ≠ ".tsv" →
      read_tabular true fileName parse
          = Except.error (FileError.valueError
              "harmonization only supports CSV or TSV inputs")
        ∧ read_tabular true fileName parse
            = read_tabular true fileName parse') := by
  have hexpr : ∀ p : Char → List (List String),
      read_tabular true fileName p
      = (if pyLower (path_suffix fileName) ≠ ".csv"
            ∧ pyLower (path_suffix fileName) ≠ ".tsv"
         then Except.error (FileError.valueError
            "harmonization only supports CSV or TSV inputs")
         else Except.ok (p (if pyLower (path_suffix fileName) = ".csv"
            then ',' else '\t'))) := by
    intro p
    unfold read_tabular
    rw [if_neg (by decide : ¬ ((true : Bool) = false))]
  refine ⟨?_, ?_, ?_⟩
  · intro h
    rw [hexpr parse, h]
    rw [if_neg (by decide), if_pos rfl]
  · intro h
    rw [hexpr parse, h]
    rw [if_neg (by decide), if_neg (by decide)]
  · intro h
    constructor
    · rw [hexpr parse, if_pos h]
    · rw [hexpr parse, hexpr parse', if_pos h, if_pos h]

/-- Witness for C10: an uppercase `.CSV` extension parses with the comma
delimiter; an `.xlsx` extension is rejected identically for two different
readers. -/
theorem C10_witness :
    read_tabular true "data.CSV" (fun _ => [["h"], ["r"]])
        = Except.ok [["h"], ["r"]] ∧
    read_tabular true "data.xlsx" (fun _ => [["h"]])
        = Except.error (FileError.valueError
            "harmonization only supports CSV or TSV inputs") := by
  constructor
  · exact (C10_read_tabular_extension "data.CSV" (fun _ => [["h"], ["r"]])
      (fun _ => [])).1 (by decide)
  · exact ((C10_read_tabular_extension "data.xlsx" (fun _ => [["h"]])
      (fun _ => [])).2.2 (by decide)).1

/-- C8 counterexample: the default timeout is 1200 seconds — twenty minutes,
under even a single hour — so "the default timeout is a multi-hour value"
fails; the rest of the claim's validations are confirmed separately. -/
theorem C8_counterexample :
    validated_timeout Option.none = Except.ok 1200
      ∧ ¬ ((3600 : ℚ) ≤ 1200)
      ∧ Except.map Settings.timeout
          (build_settings "key" Option.none Option.none Option.none Option.none
            Option.none Option.none Option.none Option.none Option.none)
        = Except.ok 1200 := by
  refine ⟨rfl, by decide, rfl⟩

/-- C8 (amended): `build_settings` errors synchronously — producing no
`Settings` value — whenever the api key is blank after stripping, a supplied
timeout is not positive, or the log level is outside the enumerated set;
`validated_confidence_threshold` defaults to `0.8` and accepts exactly
`[0,1]`; a supplied positive timeout round-trips and the DEFAULT timeout is
1200 seconds (20 minutes), not a multi-hour value. -/
theorem C8_settings_validation :
    (∀ (api_key : String) (timeout : Option ℚ) (log_level : Option String)
        (b1 b2 : Option Bool) (ld du hu dmu : Option String)
        (env : Option Environment),
      (pyStrip api_key = ""
        ∨ (∃ q, timeout = Option.some q ∧ q ≤ 0)
        ∨ (∃ s, log_level = Option.some s
            ∧ logLevelOfName (pyUpper s) = Option.none)) →
      ∃ e, build_settings api_key timeout log_level b1 b2 ld du hu dmu env
        = Except.error e) ∧
    validated_timeout Option.none = Except.ok 1200 ∧
    (∀ q : ℚ, 0 < q → validated_timeout (Option.some q) = Except.ok q) ∧
    (∀ q : ℚ, q ≤ 0 →
      ∃ e, validated_timeout (Option.some q) = Except.error e) ∧
    validated_confidence_threshold Option.none = Except.ok (mkRat 4 5) ∧
    (∀ v : ℚ, 0 ≤ v → v ≤ 1 →
      validated_confidence_threshold (Option.some v) = Except.ok v) ∧
    (∀ v : ℚ, ¬ (0 ≤ v ∧ v ≤ 1) →
      ∃ e, validated_confidence_threshold (Option.some v) = Except.error e) ∧
    (∀ (s : String) (lv : LogLevel),
      normalized_level (Option.some s) = Except.ok lv →
      pyUpper s ∈ ["CRITICAL", "ERROR", "WARNING", "INFO", "DEBUG"]) := by
  refine ⟨?_, rfl, ?_, ?_, rfl, ?_, ?_, ?_⟩
  · intro api_key timeout log_level b1 b2 ld du hu dmu env h
    unfold build_settings
    by_cases hkey : pyStrip api_key = ""
    · rw [if_pos hkey]
      exact ⟨_, rfl⟩
    · rw [if_neg hkey]
      rcases h with h | ⟨q, hq, hq0⟩ | ⟨s, hs, hlv⟩
      · exact absurd h hkey
      · cases hnl : normalized_level log_level with
        | error e => exact ⟨e, rfl⟩
        | ok lv =>
          have hvt : validated_timeout timeout
              = Except.error (ConfigError.clientConfiguration
                  "timeout must be positive when provided") := by
            rw [hq]
            show (if q ≤ 0 then Except.error (ConfigError.clientConfiguration
                "timeout must be positive when provided")
              else Except.ok q) = _
            rw [if_pos hq0]
          rw [hvt]
          exact ⟨_, rfl⟩
      · have hnl : normalized_level log_level
            = Except.error (ConfigError.clientConfiguration
                ("unsupported log_level: " ++ s)) := by
          rw [hs]
          show (match logLevelOfName (pyUpper s) with
            | Option.some lv => Except.ok lv
            | Option.none => Except.error (ConfigError.clientConfiguration
                ("unsupported log_level: " ++ s))) = _
          rw [hlv]
        rw [hnl]
        exact ⟨_, rfl⟩
  · intro q hq
    show (if q ≤ 0 then Except.error (ConfigError.clientConfiguration
        "timeout must be positive when provided")
      else Except.ok q) = Except.ok q
    rw [if_neg (not_le.mpr hq)]
  · intro q hq
    refine ⟨ConfigError.clientConfiguration
      "timeout must be positive when provided", ?_⟩
    show (if q ≤ 0 then Except.error (ConfigError.clientConfiguration
        "timeout must be positive when provided")
      else Except.ok q)
      = Except.error (ConfigError.clientConfiguration
          "timeout must be positive when provided")
    rw [if_pos hq]
  · intro v h0 h1
    show (if ¬ (0 ≤ v ∧ v ≤ 1) then
        Except.error (ConfigError.clientConfiguration
          "confidence_threshold must be between 0.0 and 1.0")
      else Except.ok v) = Except.ok v
    rw [if_neg (not_not_intro ⟨h0, h1⟩)]
  · intro v hv
    refine ⟨ConfigError.clientConfiguration
      "confidence_threshold must be between 0.0 and 1.0", ?_⟩
    show (if ¬ (0 ≤ v ∧ v ≤ 1) then
        Except.error (ConfigError.clientConfiguration
          "confidence_threshold must be between 0.0 and 1.0")
      else Except.ok v)
      = Except.error (ConfigError.clientConfiguration
          "confidence_threshold must be between 0.0 and 1.0")
    rw [if_pos hv]
  · intro s lv h
    replace h : (match logLevelOfName (pyUpper s) with
      | Option.some l => Except.ok l
      | Option.none => Except.error (ConfigError.clientConfiguration
          ("unsupported log_level: " ++ s))) = Except.ok lv := h
    by_cases h1 : pyUpper s = "CRITICAL"
    · simp [h1]
    by_cases h2 : pyUpper s = "ERROR"
    · simp [h2]
    by_cases h3 : pyUpper s = "WARNING"
    · simp [h3]
    by_cases h4 : pyUpper s = "INFO"
    · simp [h4]
    by_cases h5 : pyUpper s = "DEBUG"
    · simp [h5]
    exfalso
    unfold logLevelOfName at h
    rw [if_neg h1, if_neg h2, if_neg h3, if_neg h4, if_neg h5] at h
    simp at h

/-- Witness for C8: a blank api key errors, a zero timeout errors, an
in-range confidence threshold round-trips, an out-of-range one errors. -/
theorem C8_witness :
    (∃ e, build_settings "   " Option.none Option.none Option.none Option.none
        Option.none Option.none Option.none Option.none Option.none
      = Except.error e) ∧
    (∃ e, validated_timeout (Option.some 0) = Except.error e) ∧
    validated_confidence_threshold (Option.some (mkRat 1 2))
      = Except.ok (mkRat 1 2) ∧
    (∃ e, validated_confidence_threshold (Option.some 2) = Except.error e) := by
  refine ⟨?_, ?_, ?_, ?_⟩
  · exact C8_settings_validation.1 "   " Option.none Option.none Option.none
      Option.none Option.none Option.none Option.none Option.none Option.none
      (Or.inl (by decide))
  · exact C8_settings_validation.2.2.2.1 0 (by decide)
  · exact C8_settings_validation.2.2.2.2.2.1 (mkRat 1 2) (by decide) (by decide)
  · exact C8_settings_validation.2.2.2.2.2.2.1 2 (by decide)

end Netrias
